import Mathlib

/-!
Verification of the lisk-v4-dex-adapter core against its source.

The embedding models, from the JavaScript source:
  - `src/lisk-service/client.js`   : the failover HTTP client (`tryWithFallback`, `get`),
  - `src/lisk-service/repository.js`: query construction (`getBlocksBetweenHeights`,
    `getOutboundTransactions`),
  - `src/liskv3/adapter.js`        : the action layer (`isMultisigAccount`,
    `getMultisigWalletMembers`, `getMinMultisigRequiredSignatures`, `postTransaction`),
  - `src/liskv3/mapper.js`         : `transactionMapper`.

Stateful effects (the sequence of attempted endpoints, the remote index, the remote
broadcast outcome, the random shuffle) are made explicit parameters or explicit result
components, so every definition is executable.
-/

namespace DexAdapter

/-- Model of a JavaScript runtime value, rich enough to capture the truthiness
tests the source performs (`if (response)`, `!response.transactionID`). -/
inductive JsValue where
  | null
  | undefined
  | bool (b : Bool)
  | num (n : Int)
  | str (s : String)
  | obj (tag : String)
deriving DecidableEq, Repr

/-- JavaScript truthiness: `null`, `undefined`, `false`, `0` and `""` are falsy;
every object is truthy. -/
def truthy : JsValue → Bool
  | .null => false
  | .undefined => false
  | .bool b => b
  | .num n => decide (n ≠ 0)
  | .str s => decide (s ≠ "")
  | .obj _ => true

instance exceptDecEq {ε α : Type} [DecidableEq ε] [DecidableEq α] :
    DecidableEq (Except ε α) := fun x y =>
  match x, y with
  | .ok a, .ok b =>
    if h : a = b then .isTrue (by rw [h])
    else .isFalse (by intro hc; cases hc; exact h rfl)
  | .error a, .error b =>
    if h : a = b then .isTrue (by rw [h])
    else .isFalse (by intro hc; cases hc; exact h rfl)
  | .ok _, .error _ => .isFalse (by intro hc; cases hc)
  | .error _, .ok _ => .isFalse (by intro hc; cases hc)

/-- A request function, as built by `HttpClient.HttpGetRequestFn` /
`HttpPostRequestFn` (client.js lines 5-6): given a base URL it either returns a
response value or throws an error value. -/
def RequestFn : Type := String → Except JsValue JsValue

/-- Embedding of `HttpClient.tryWithFallback` (client.js lines 14-23): walk the
fallback list in order; return the first successful response (errors are caught
and traversal continues); return `null` when every fallback fails.  The second
component records which fallback URLs were attempted, in order. -/
def tryWithFallback (requestFn : RequestFn) : List String → JsValue × List String
  | [] => (.null, [])
  | fb :: rest =>
    match requestFn fb with
    | .ok r => (r, [fb])
    | .error _ =>
      let (v, att) := tryWithFallback requestFn rest
      (v, fb :: att)

/-- Embedding of `HttpClient.get` (client.js lines 25-37): try the primary base
URL; on a thrown error, run `tryWithFallback`; return the fallback response only
when it is truthy (`if (response) { return response }`), otherwise re-throw the
primary's original error.  The second component records every attempted URL
(primary first), in order. -/
def clientGet (requestFn : RequestFn) (baseUrl : String) (fallbacks : List String) :
    Except JsValue JsValue × List String :=
  match requestFn baseUrl with
  | .ok r => (.ok r, [baseUrl])
  | .error err =>
    let (response, att) := tryWithFallback requestFn fallbacks
    if truthy response then (.ok response, baseUrl :: att)
    else (.error err, baseUrl :: att)

/-- Helper: when every fallback in the list fails, `tryWithFallback` yields
`null` after attempting every fallback in order. -/
theorem tryWithFallback_all_fail (requestFn : RequestFn) :
    ∀ fallbacks : List String,
      (∀ u ∈ fallbacks, ∃ e, requestFn u = .error e) →
      tryWithFallback requestFn fallbacks = (.null, fallbacks) := by
  intro fallbacks
  induction fallbacks with
  | nil => intro _; rfl
  | cons fb rest ih =>
    intro h
    obtain ⟨e, he⟩ := h fb (List.mem_cons_self fb rest)
    have hrest := ih (fun u hu => h u (List.mem_cons_of_mem fb hu))
    simp [tryWithFallback, he, hrest]

/-- Helper: when every fallback before `fk` fails and `fk` succeeds with `r`,
`tryWithFallback` returns `r` having attempted exactly `pre ++ [fk]` — the
fallbacks after `fk` are never attempted. -/
theorem tryWithFallback_first_success (requestFn : RequestFn)
    (pre post : List String) (fk : String) (r : JsValue)
    (hpre : ∀ u ∈ pre, ∃ e, requestFn u = .error e)
    (hk : requestFn fk = .ok r) :
    tryWithFallback requestFn (pre ++ fk :: post) = (r, pre ++ [fk]) := by
  induction pre with
  | nil => simp [tryWithFallback, hk]
  | cons u us ih =>
    obtain ⟨e, he⟩ := hpre u (List.mem_cons_self u us)
    have hrest := ih (fun v hv => hpre v (List.mem_cons_of_mem u hv))
    simp [tryWithFallback, he, hrest]

/-- Concrete request function exercising the falsy-fallback path of `clientGet`:
the primary "p" throws, the sole fallback "f" succeeds with the falsy value `null`. -/
def falsyFallbackRequest : RequestFn := fun u =>
  if u = "p" then .error (.str "primary-error")
  else if u = "f" then .ok .null
  else .error (.str "unreachable")

/-- Request function for the fallback-success witness: primary "p" and fallback
"f1" throw, fallback "f2" succeeds with a truthy payload. -/
def fallbackChainRequest : RequestFn := fun u =>
  if u = "p" then .error (.str "e0")
  else if u = "f1" then .error (.str "e1")
  else if u = "f2" then .ok (.str "payload")
  else .error (.str "e-other")

/-- Request function that fails at every URL, tagging the error with the URL. -/
def alwaysFailRequest : RequestFn := fun u => .error (.str ("err-" ++ u))

/-- C2 counterexample: with primary "p" failing and the first (and only) fallback
"f" succeeding with the falsy value `null`, `get` does not return the fallback's
response; it raises the primary's original error (client.js line 32 only returns
a truthy fallback response). -/
theorem C2_falsy_fallback_counterexample :
    falsyFallbackRequest "f" = .ok .null ∧
    (clientGet falsyFallbackRequest "p" ["f"]).fst ≠ .ok .null ∧
    (clientGet falsyFallbackRequest "p" ["f"]).fst = .error (.str "primary-error") := by
  decide

/-- C2 (amended): if the primary fails and the k-th fallback succeeds (all earlier
fallbacks failing), fallbacks after the k-th are never attempted; when the k-th
fallback's response is truthy the call returns it without error, but when it is
falsy/empty the call raises the primary's original error. -/
theorem C2_fallback_success_amended (requestFn : RequestFn) (baseUrl : String)
    (pre post : List String) (fk : String) (e r : JsValue)
    (hp : requestFn baseUrl = .error e)
    (hpre : ∀ u ∈ pre, ∃ eu, requestFn u = .error eu)
    (hk : requestFn fk = .ok r) :
    (clientGet requestFn baseUrl (pre ++ fk :: post)).snd = baseUrl :: (pre ++ [fk]) ∧
    (truthy r = true → (clientGet requestFn baseUrl (pre ++ fk :: post)).fst = .ok r) ∧
    (truthy r = false → (clientGet requestFn baseUrl (pre ++ fk :: post)).fst = .error e) := by
  have h := tryWithFallback_first_success requestFn pre post fk r hpre hk
  by_cases htr : truthy r <;>
    refine ⟨?_, ?_, ?_⟩ <;>
    simp [clientGet, hp, h, htr]

/-- Witness for `C2_fallback_success_amended` at a concrete chain: primary "p"
fails, fallback "f1" fails, fallback "f2" succeeds with a truthy payload and
"f3" is never attempted. -/
theorem C2_fallback_success_amended_witness :
    (clientGet fallbackChainRequest "p" (["f1"] ++ "f2" :: ["f3"])).snd
        = "p" :: (["f1"] ++ ["f2"]) ∧
    (truthy (.str "payload") = true →
      (clientGet fallbackChainRequest "p" (["f1"] ++ "f2" :: ["f3"])).fst
        = .ok (.str "payload")) ∧
    (truthy (.str "payload") = false →
      (clientGet fallbackChainRequest "p" (["f1"] ++ "f2" :: ["f3"])).fst
        = .error (.str "e0")) :=
  C2_fallback_success_amended fallbackChainRequest "p" ["f1"] ["f3"] "f2"
    (.str "e0") (.str "payload") (by decide)
    (by
      intro u hu
      have : u = "f1" := by simpa using hu
      subst this
      exact ⟨.str "e1", by decide⟩)
    (by decide)

/-- C3: if the primary request fails with error `e` and every fallback attempt
also fails, `get` raises exactly the primary's original error `e` (client.js:
`tryWithFallback` swallows every fallback error and yields `null`, so `get`
re-throws `err` from the primary attempt). -/
theorem C3_all_fail_raises_primary_error (requestFn : RequestFn) (baseUrl : String)
    (fallbacks : List String) (e : JsValue)
    (hp : requestFn baseUrl = .error e)
    (hf : ∀ u ∈ fallbacks, ∃ eu, requestFn u = .error eu) :
    (clientGet requestFn baseUrl fallbacks).fst = .error e := by
  have h := tryWithFallback_all_fail requestFn fallbacks hf
  simp [clientGet, hp, h, truthy]

/-- Witness for `C3_all_fail_raises_primary_error`: everything fails; the raised
error is the primary's, not either fallback's. -/
theorem C3_all_fail_raises_primary_error_witness :
    (clientGet alwaysFailRequest "p" ["f1", "f2"]).fst = .error (.str "err-p") :=
  C3_all_fail_raises_primary_error alwaysFailRequest "p" ["f1", "f2"]
    (.str "err-p") (by decide)
    (by intro u _; exact ⟨.str ("err-" ++ u), rfl⟩)

/-- A block as carried by the index and by `blockMapper` (mapper.js line 16). -/
structure Block where
  id : String
  height : Nat
  timestamp : Nat
  numberOfTransactions : Nat
deriving DecidableEq, Repr

/-- Rendering of an optional interval bound: a `null`/absent bound becomes the
empty string (repository.js lines 107-108). -/
def boundString : Option Nat → String
  | none => ""
  | some n => toString n

/-- The `height` filter value built by `getBlocksBetweenHeights`
(repository.js line 110): the string `fromHeightString:toHeightString`. -/
def heightIntervalParam (fromHeight toHeight : Option Nat) : String :=
  boundString fromHeight ++ ":" ++ boundString toHeight

/-- Inclusive interval membership; a missing bound (rendered as the empty string
in the interval filter) means unbounded on that side. -/
def inBounds (lo hi : Option Nat) (v : Nat) : Bool :=
  (match lo with | none => true | some l => decide (l ≤ v)) &&
  (match hi with | none => true | some u => decide (v ≤ u))

theorem inBounds_lower {lo hi : Option Nat} {v : Nat}
    (h : inBounds lo hi v = true) : ∀ l, lo = some l → l ≤ v := by
  intro l hl
  subst hl
  cases hi <;> simp [inBounds] at h <;> first | exact h | exact h.1

theorem inBounds_upper {lo hi : Option Nat} {v : Nat}
    (h : inBounds lo hi v = true) : ∀ u, hi = some u → v ≤ u := by
  intro u hu
  subst hu
  cases lo <;> simp [inBounds] at h <;> first | exact h | exact h.2

/-- Models the external block index (spec, Query Repository and External
Interfaces sections): it answers the inclusive interval filter with the matching
blocks in stored order (the chain, ascending by height), truncated to `limit`.
The bounds are the parsed form of `heightIntervalParam`, the empty side meaning
unbounded. -/
def indexBlocks (chain : List Block) (lo hi : Option Nat) (limit : Nat) : List Block :=
  (chain.filter (fun b => inBounds lo hi b.height)).take limit

/-- Embedding of `LiskServiceRepository.getBlocksBetweenHeights`
(repository.js lines 106-119): query the inclusive interval, ascending, with the
given limit, then shift off the first block when its height equals `fromHeight`
(the strict comparison `blocks[0].height === fromHeight` can only hold when
`fromHeight` is an actual number, hence the match on `fromHeight`). -/
def getBlocksBetweenHeights (chain : List Block) (fromHeight toHeight : Option Nat)
    (limit : Nat) : List Block :=
  let blocks := indexBlocks chain fromHeight toHeight limit
  match fromHeight, blocks with
  | some fh, b :: rest => if b.height = fh then rest else b :: rest
  | _, _ => blocks

theorem indexBlocks_pairwise (chain : List Block) (lo hi : Option Nat) (limit : Nat)
    (hsorted : chain.Pairwise (fun a b => a.height < b.height)) :
    (indexBlocks chain lo hi limit).Pairwise (fun a b => a.height < b.height) :=
  List.Pairwise.sublist
    ((List.take_sublist _ _).trans (List.filter_sublist _)) hsorted

theorem indexBlocks_mem_inBounds {chain : List Block} {lo hi : Option Nat}
    {limit : Nat} {b : Block} (hb : b ∈ indexBlocks chain lo hi limit) :
    inBounds lo hi b.height = true :=
  (List.mem_filter.mp (List.mem_of_mem_take hb)).2

/-- C4: under the index assumption (ascending chain with unique heights answered
on the inclusive interval), `getBlocksBetweenHeights` never returns a block of
height `fromHeight`; every returned block has height in the interval
`(fromHeight, toHeight]` (unbounded on an absent side) in ascending height
order, and an absent bound is rendered as an empty string in the interval
filter parameter. -/
theorem C4_blocks_between_heights (chain : List Block) (fromHeight toHeight : Option Nat)
    (limit : Nat)
    (hsorted : chain.Pairwise (fun a b => a.height < b.height)) :
    (∀ b ∈ getBlocksBetweenHeights chain fromHeight toHeight limit,
        (∀ h1, fromHeight = some h1 → h1 < b.height) ∧
        (∀ h2, toHeight = some h2 → b.height ≤ h2)) ∧
    (getBlocksBetweenHeights chain fromHeight toHeight limit).Pairwise
        (fun a b => a.height < b.height) ∧
    (fromHeight = none →
      heightIntervalParam fromHeight toHeight = ":" ++ boundString toHeight) ∧
    (toHeight = none →
      heightIntervalParam fromHeight toHeight = boundString fromHeight ++ ":") := by
  have hpair := indexBlocks_pairwise chain fromHeight toHeight limit hsorted
  refine ⟨?_, ?_, ?_, ?_⟩
  · intro b hb
    cases hfrom : fromHeight with
    | none =>
      simp only [getBlocksBetweenHeights, hfrom] at hb
      refine ⟨(fun h1 h => nomatch h), ?_⟩
      intro h2 hh2
      exact inBounds_upper (indexBlocks_mem_inBounds hb) h2 hh2
    | some fh =>
      simp only [getBlocksBetweenHeights, hfrom] at hb
      revert hb
      cases hbl : indexBlocks chain (some fh) toHeight limit with
      | nil => intro hb; cases hb
      | cons b0 rest =>
        have hpair' := hpair
        rw [hfrom, hbl] at hpair'
        have hb0 : b0 ∈ indexBlocks chain (some fh) toHeight limit := by
          rw [hbl]; exact List.mem_cons_self _ _
        have hb0lo : fh ≤ b0.height := inBounds_lower (indexBlocks_mem_inBounds hb0) fh rfl
        by_cases h0 : b0.height = fh
        · simp only [h0, if_pos rfl]
          intro hb
          have hmem : b ∈ indexBlocks chain (some fh) toHeight limit := by
            rw [hbl]; exact List.mem_cons_of_mem _ hb
          refine ⟨?_, ?_⟩
          · intro h1 hh1
            cases hh1
            have := (List.pairwise_cons.mp hpair').1 b hb
            omega
          · intro h2 hh2
            exact inBounds_upper (indexBlocks_mem_inBounds hmem) h2 hh2
        · simp only [if_neg h0]
          intro hb
          have hmem : b ∈ indexBlocks chain (some fh) toHeight limit := by
            rw [hbl]; exact hb
          refine ⟨?_, ?_⟩
          · intro h1 hh1
            cases hh1
            rcases List.mem_cons.mp hb with hbeq | hbtail
            · subst hbeq; omega
            · have := (List.pairwise_cons.mp hpair').1 b hbtail
              omega
          · intro h2 hh2
            exact inBounds_upper (indexBlocks_mem_inBounds hmem) h2 hh2
  · cases hfrom : fromHeight with
    | none => simpa [getBlocksBetweenHeights, hfrom] using hpair
    | some fh =>
      have hpair' := hpair
      rw [hfrom] at hpair'
      simp only [getBlocksBetweenHeights, hfrom]
      revert hpair'
      cases hbl : indexBlocks chain (some fh) toHeight limit with
      | nil => intro h; exact h
      | cons b0 rest =>
        intro hpair'
        by_cases h0 : b0.height = fh
        · simp only [h0, if_pos rfl]
          exact (List.pairwise_cons.mp hpair').2
        · simp only [if_neg h0]
          exact hpair'
  · intro h; subst h; simp [heightIntervalParam, boundString]
  · intro h; subst h; simp [heightIntervalParam, boundString]

/-- Witness for `C4_blocks_between_heights` on a concrete three-block chain:
the interval (1, 3] with limit 10 yields the blocks at heights 2 and 3 and the
theorem's conclusions hold there. -/
theorem C4_blocks_between_heights_witness :
    (∀ b ∈ getBlocksBetweenHeights
        [⟨"a", 1, 10, 0⟩, ⟨"b", 2, 20, 0⟩, ⟨"c", 3, 30, 0⟩] (some 1) (some 3) 10,
        (∀ h1, (some 1 : Option Nat) = some h1 → h1 < b.height) ∧
        (∀ h2, (some 3 : Option Nat) = some h2 → b.height ≤ h2)) ∧
    (getBlocksBetweenHeights
        [⟨"a", 1, 10, 0⟩, ⟨"b", 2, 20, 0⟩, ⟨"c", 3, 30, 0⟩] (some 1) (some 3) 10).Pairwise
        (fun a b => a.height < b.height) ∧
    ((some 1 : Option Nat) = none →
      heightIntervalParam (some 1) (some 3) = ":" ++ boundString (some 3)) ∧
    ((some 3 : Option Nat) = none →
      heightIntervalParam (some 1) (some 3) = boundString (some 1) ++ ":") :=
  C4_blocks_between_heights
    [⟨"a", 1, 10, 0⟩, ⟨"b", 2, 20, 0⟩, ⟨"c", 3, 30, 0⟩] (some 1) (some 3) 10
    (by decide)

/-- A transaction as stored by the external index, restricted to the fields the
outbound-transactions filter inspects. -/
structure ServiceTx where
  id : String
  senderAddress : String
  moduleCommand : String
  timestamp : Nat
deriving DecidableEq, Repr

/-- The filter-parameter record built from the `metaStore.Transactions.filter`
keys (repository.js lines 63-75).  The timestamp interval is kept in parsed
form; its rendered string is `timestampParam`. -/
structure TxFilterParams where
  senderAddress : String
  limit : Nat
  moduleCommand : String
  sort : String
  tsLo : Option Nat
  tsHi : Option Nat
deriving DecidableEq, Repr

/-- Rendered `timestamp` filter value: the asc branch renders `fromTimestamp:`
(repository.js line 71), the desc branch `0:fromTimestamp` (line 74). -/
def timestampParam (p : TxFilterParams) : String :=
  boundString p.tsLo ++ ":" ++ boundString p.tsHi

/-- Embedding of the filter object built by
`LiskServiceRepository.getOutboundTransactions` (repository.js lines 63-75):
senderAddress, limit and the fixed transfer moduleCommand always; ascending
timestamp sort with interval `fromTimestamp:` when `order === 'asc'`, otherwise
descending sort with interval `0:fromTimestamp`. -/
def getOutboundTransactionsParams (senderAddress : String) (fromTimestamp limit : Nat)
    (order : String) : TxFilterParams :=
  if order = "asc" then
    { senderAddress := senderAddress, limit := limit,
      moduleCommand := "token:transfer", sort := "timestamp:asc",
      tsLo := some fromTimestamp, tsHi := none }
  else
    { senderAddress := senderAddress, limit := limit,
      moduleCommand := "token:transfer", sort := "timestamp:desc",
      tsLo := some 0, tsHi := some fromTimestamp }

/-- Predicate the external index applies for a transactions filter query. -/
def txMatches (p : TxFilterParams) (t : ServiceTx) : Bool :=
  t.senderAddress = p.senderAddress && t.moduleCommand = p.moduleCommand &&
    inBounds p.tsLo p.tsHi t.timestamp

/-- Models the external transactions index (spec, Query Repository and External
Interfaces sections): keep the transactions matching every filter, in stored
(ascending-timestamp) order, reversed for a descending sort, truncated to
`limit`. -/
def indexTransactions (store : List ServiceTx) (p : TxFilterParams) : List ServiceTx :=
  let matched := store.filter (txMatches p)
  let ordered := if p.sort = "timestamp:desc" then matched.reverse else matched
  ordered.take p.limit

theorem indexTransactions_asc_eq (store : List ServiceTx) (p : TxFilterParams)
    (h : p.sort ≠ "timestamp:desc") :
    indexTransactions store p = (store.filter (txMatches p)).take p.limit := by
  simp [indexTransactions, h]

theorem indexTransactions_desc_eq (store : List ServiceTx) (p : TxFilterParams)
    (h : p.sort = "timestamp:desc") :
    indexTransactions store p = (store.filter (txMatches p)).reverse.take p.limit := by
  simp [indexTransactions, h]

/-- Embedding of `LiskServiceRepository.getOutboundTransactions`
(repository.js lines 63-77): build the filter and query the index. -/
def getOutboundTransactions (store : List ServiceTx) (senderAddress : String)
    (fromTimestamp limit : Nat) (order : String) : List ServiceTx :=
  indexTransactions store
    (getOutboundTransactionsParams senderAddress fromTimestamp limit order)

/-- The JavaScript signature defaults `order` to `'asc'` when the argument is
omitted (repository.js line 63). -/
def getOutboundTransactionsDefault (store : List ServiceTx) (senderAddress : String)
    (fromTimestamp limit : Nat) : List ServiceTx :=
  getOutboundTransactions store senderAddress fromTimestamp limit "asc"

theorem indexTransactions_mem {store : List ServiceTx} {p : TxFilterParams}
    {x : ServiceTx} (hx : x ∈ indexTransactions store p) :
    x.senderAddress = p.senderAddress ∧ x.moduleCommand = p.moduleCommand ∧
      inBounds p.tsLo p.tsHi x.timestamp = true := by
  have hx' : txMatches p x = true := by
    by_cases hs : p.sort = "timestamp:desc"
    · rw [indexTransactions_desc_eq store p hs] at hx
      have := List.mem_reverse.mp (List.mem_of_mem_take hx)
      exact (List.mem_filter.mp this).2
    · rw [indexTransactions_asc_eq store p hs] at hx
      exact (List.mem_filter.mp (List.mem_of_mem_take hx)).2
  simp only [txMatches, Bool.and_eq_true, decide_eq_true_eq] at hx'
  exact ⟨hx'.1.1, hx'.1.2, hx'.2⟩

/-- C6: `getOutboundTransactions` builds the documented filter (senderAddress,
transfer moduleCommand, limit, `fromTimestamp:` ascending for "asc" — also the
default — and `0:fromTimestamp` descending for "desc"), so against an
ascending-timestamp store it returns only transfer transactions of the sender
with timestamp ≥ fromTimestamp ascending, respectively ≤ fromTimestamp
descending. -/
theorem C6_outbound_transactions (store : List ServiceTx) (addr : String)
    (t limit : Nat)
    (hsorted : store.Pairwise (fun a b => a.timestamp ≤ b.timestamp)) :
    (getOutboundTransactionsParams addr t limit "asc" =
      { senderAddress := addr, limit := limit, moduleCommand := "token:transfer",
        sort := "timestamp:asc", tsLo := some t, tsHi := none }) ∧
    (timestampParam (getOutboundTransactionsParams addr t limit "asc")
        = toString t ++ ":") ∧
    (getOutboundTransactionsParams addr t limit "desc" =
      { senderAddress := addr, limit := limit, moduleCommand := "token:transfer",
        sort := "timestamp:desc", tsLo := some 0, tsHi := some t }) ∧
    (timestampParam (getOutboundTransactionsParams addr t limit "desc")
        = "0:" ++ toString t) ∧
    (getOutboundTransactionsDefault store addr t limit
        = getOutboundTransactions store addr t limit "asc") ∧
    (∀ x ∈ getOutboundTransactions store addr t limit "asc",
        x.senderAddress = addr ∧ x.moduleCommand = "token:transfer" ∧
          t ≤ x.timestamp) ∧
    (getOutboundTransactions store addr t limit "asc").Pairwise
        (fun a b => a.timestamp ≤ b.timestamp) ∧
    (∀ x ∈ getOutboundTransactions store addr t limit "desc",
        x.senderAddress = addr ∧ x.moduleCommand = "token:transfer" ∧
          x.timestamp ≤ t) ∧
    (getOutboundTransactions store addr t limit "desc").Pairwise
        (fun a b => b.timestamp ≤ a.timestamp) := by
  have hasc : getOutboundTransactionsParams addr t limit "asc" =
      { senderAddress := addr, limit := limit, moduleCommand := "token:transfer",
        sort := "timestamp:asc", tsLo := some t, tsHi := none } := rfl
  have hdesc : getOutboundTransactionsParams addr t limit "desc" =
      { senderAddress := addr, limit := limit, moduleCommand := "token:transfer",
        sort := "timestamp:desc", tsLo := some 0, tsHi := some t } := rfl
  refine ⟨rfl, ?_, rfl, ?_, rfl, ?_, ?_, ?_, ?_⟩
  · simp [timestampParam, getOutboundTransactionsParams, boundString]
  · have h0 : (toString (0 : Nat) ++ ":" : String) = "0:" := by decide
    show toString (0 : Nat) ++ ":" ++ toString t = "0:" ++ toString t
    rw [h0]
  · intro x hx
    have h := indexTransactions_mem hx
    exact ⟨h.1, h.2.1, inBounds_lower h.2.2 t rfl⟩
  · rw [getOutboundTransactions, hasc, indexTransactions_asc_eq store _ (by simp)]
    exact List.Pairwise.sublist
      ((List.take_sublist _ _).trans (List.filter_sublist store)) hsorted
  · intro x hx
    have h := indexTransactions_mem hx
    exact ⟨h.1, h.2.1, inBounds_upper h.2.2 t rfl⟩
  · rw [getOutboundTransactions, hdesc, indexTransactions_desc_eq store _ (by simp)]
    refine List.Pairwise.sublist (List.take_sublist _ _) ?_
    rw [List.pairwise_reverse]
    exact List.Pairwise.sublist (List.filter_sublist store) hsorted

/-- Witness for `C6_outbound_transactions` on a concrete two-transaction store. -/
theorem C6_outbound_transactions_witness :
    (getOutboundTransactionsParams "s" 15 5 "asc" =
      { senderAddress := "s", limit := 5, moduleCommand := "token:transfer",
        sort := "timestamp:asc", tsLo := some 15, tsHi := none }) ∧
    (timestampParam (getOutboundTransactionsParams "s" 15 5 "asc")
        = toString 15 ++ ":") ∧
    (getOutboundTransactionsParams "s" 15 5 "desc" =
      { senderAddress := "s", limit := 5, moduleCommand := "token:transfer",
        sort := "timestamp:desc", tsLo := some 0, tsHi := some 15 }) ∧
    (timestampParam (getOutboundTransactionsParams "s" 15 5 "desc")
        = "0:" ++ toString 15) ∧
    (getOutboundTransactionsDefault
        [⟨"t1", "s", "token:transfer", 10⟩, ⟨"t2", "s", "token:transfer", 20⟩] "s" 15 5
        = getOutboundTransactions
        [⟨"t1", "s", "token:transfer", 10⟩, ⟨"t2", "s", "token:transfer", 20⟩] "s" 15 5 "asc") ∧
    (∀ x ∈ getOutboundTransactions
        [⟨"t1", "s", "token:transfer", 10⟩, ⟨"t2", "s", "token:transfer", 20⟩] "s" 15 5 "asc",
        x.senderAddress = "s" ∧ x.moduleCommand = "token:transfer" ∧
          15 ≤ x.timestamp) ∧
    (getOutboundTransactions
        [⟨"t1", "s", "token:transfer", 10⟩, ⟨"t2", "s", "token:transfer", 20⟩] "s" 15 5 "asc").Pairwise
        (fun a b => a.timestamp ≤ b.timestamp) ∧
    (∀ x ∈ getOutboundTransactions
        [⟨"t1", "s", "token:transfer", 10⟩, ⟨"t2", "s", "token:transfer", 20⟩] "s" 15 5 "desc",
        x.senderAddress = "s" ∧ x.moduleCommand = "token:transfer" ∧
          x.timestamp ≤ 15) ∧
    (getOutboundTransactions
        [⟨"t1", "s", "token:transfer", 10⟩, ⟨"t2", "s", "token:transfer", 20⟩] "s" 15 5 "desc").Pairwise
        (fun a b => b.timestamp ≤ a.timestamp) :=
  C6_outbound_transactions
    [⟨"t1", "s", "token:transfer", 10⟩, ⟨"t2", "s", "token:transfer", 20⟩]
    "s" 15 5 (by decide)

/-- The typed error kinds raised by the action layer (the names exported by
liskv3/errors.js and used in adapter.js). -/
inductive AdapterError where
  | accountWasNotMultisig
  | multisigAccountDidNotExist
  | accountDidNotExist
  | blockDidNotExist
  | transactionBroadcast
deriving DecidableEq, Repr

/-- Account authentication record returned by `getAuth` (spec Data Model;
adapter.js reads `mandatoryKeys`, `optionalKeys`, `numberOfSignatures`). -/
structure AccountAuth where
  mandatoryKeys : List String
  optionalKeys : List String
  numberOfSignatures : Nat
deriving DecidableEq, Repr

/-- Embedding of `isMultisigAccount` (adapter.js lines 111-113). -/
def isMultisigAccount (accountAuth : AccountAuth) : Bool :=
  decide (accountAuth.numberOfSignatures > 0)

/-- Embedding of `getMultisigWalletMembers` (adapter.js lines 115-131).  The
`getAuth` outcome is passed in as an `Option` (a missing account raises the
did-not-exist error) and the lisk-cryptography address derivation
`getBase32AddressFromPublicKey` is abstracted as `addressOf`.  The source maps
`addressOf` over `accountAuth.optionalKeys` only (line 122). -/
def getMultisigWalletMembers (addressOf : String → String)
    (accountAuth : Option AccountAuth) : Except AdapterError (List String) :=
  match accountAuth with
  | some a =>
    if isMultisigAccount a then .ok (a.optionalKeys.map addressOf)
    else .error .accountWasNotMultisig
  | none => .error .multisigAccountDidNotExist

/-- Embedding of `getMinMultisigRequiredSignatures` (adapter.js lines 133-149). -/
def getMinMultisigRequiredSignatures (accountAuth : Option AccountAuth) :
    Except AdapterError Nat :=
  match accountAuth with
  | some a =>
    if isMultisigAccount a then .ok a.numberOfSignatures
    else .error .accountWasNotMultisig
  | none => .error .multisigAccountDidNotExist

/-- First-seen-order deduplication: the semantics of
`Array.from(new Set([...mandatoryKeys, ...optionalKeys]))` in `load`
(adapter.js line 293). -/
def dedupFirst (l : List String) : List String :=
  l.foldl (fun acc x => if x ∈ acc then acc else acc ++ [x]) []

/-- The multisig member key set computed by `load` (adapter.js line 293):
deduplicated, order-stable union of mandatory and optional keys. -/
def dexMultisigPublicKeys (a : AccountAuth) : List String :=
  dedupFirst (a.mandatoryKeys ++ a.optionalKeys)

/-- Restatement of the spec's words for the member-address query: addresses
derived from the deduplicated, order-stable union of the account's mandatory
and optional keys, one address per member public key. -/
def specMultisigMemberAddresses (addressOf : String → String) (a : AccountAuth) :
    List String :=
  (dexMultisigPublicKeys a).map addressOf

/-- C1: at the failing input — a multisig account with one mandatory and one
optional key — the code returns the optional key's address only, while the
spec's member set derives addresses from the mandatory-plus-optional union, so
the mandatory member's address is missing from the code's result. -/
theorem C1_members_failing_input :
    getMultisigWalletMembers (fun k => "addr-" ++ k)
        (some ⟨["aa"], ["bb"], 2⟩) = .ok ["addr-bb"] ∧
    specMultisigMemberAddresses (fun k => "addr-" ++ k) ⟨["aa"], ["bb"], 2⟩
        = ["addr-aa", "addr-bb"] := by
  decide

/-- C8: an existing account with `numberOfSignatures = 0` makes both
multisig-only actions raise the account-was-not-multisig error, and an account
is treated as multisig iff its `numberOfSignatures` is positive. -/
theorem C8_not_multisig_error (addressOf : String → String) (a : AccountAuth)
    (h : a.numberOfSignatures = 0) :
    getMultisigWalletMembers addressOf (some a) = .error .accountWasNotMultisig ∧
    getMinMultisigRequiredSignatures (some a) = .error .accountWasNotMultisig ∧
    (∀ b : AccountAuth, isMultisigAccount b = decide (b.numberOfSignatures > 0)) := by
  refine ⟨?_, ?_, fun b => rfl⟩ <;>
    simp [getMultisigWalletMembers, getMinMultisigRequiredSignatures,
      isMultisigAccount, h]

/-- Witness for `C8_not_multisig_error` at a concrete zero-threshold account. -/
theorem C8_not_multisig_error_witness :
    getMultisigWalletMembers (fun k => "addr-" ++ k) (some ⟨["k1"], ["k2"], 0⟩)
        = .error .accountWasNotMultisig ∧
    getMinMultisigRequiredSignatures (some ⟨["k1"], ["k2"], 0⟩)
        = .error .accountWasNotMultisig ∧
    (∀ b : AccountAuth, isMultisigAccount b = decide (b.numberOfSignatures > 0)) :=
  C8_not_multisig_error (fun k => "addr-" ++ k) ⟨["k1"], ["k2"], 0⟩ rfl

/-- Modelled from the spec: `computeDEXTransactionId` lives in
`common/utils.js`, which is not among the provided sources; the spec defines it
as a fixed deterministic hash of `(senderAddress, nonce)` alone, which this
stand-in realizes as a deterministic function of exactly those two inputs. -/
def computeDEXTransactionId (senderAddress : String) (nonce : String) : String :=
  "dexhash:" ++ senderAddress ++ ":" ++ nonce

structure TxSender where
  address : String
deriving DecidableEq, Repr

structure TxTransferParams where
  amount : String
  recipientAddress : String
  data : String
deriving DecidableEq, Repr

structure TxBlockRef where
  timestamp : Nat
deriving DecidableEq, Repr

/-- A signature packet (spec Data Model): signer address, member public key and
the pre-computed signature, all hex strings. -/
structure SignaturePacket where
  signerAddress : String
  publicKey : String
  signature : String
deriving DecidableEq, Repr

/-- A transaction as reported by the index service, with the upstream-reported
id and the fields `transactionMapper` destructures (mapper.js line 3). -/
structure UpstreamTransaction where
  id : String
  nonce : String
  params : TxTransferParams
  sender : TxSender
  block : TxBlockRef
  signatures : List SignaturePacket
deriving DecidableEq, Repr

/-- The mapped transaction produced by `transactionMapper` (mapper.js lines 4-13). -/
structure MappedTransaction where
  id : String
  message : String
  amount : String
  timestamp : Nat
  senderAddress : String
  recipientAddress : String
  signatures : List SignaturePacket
  nonce : String
deriving DecidableEq, Repr

/-- Embedding of `transactionMapper` (mapper.js lines 3-14): the output id is
recomputed locally from `(sender.address, nonce)`; the upstream-reported id is
dropped by the destructuring. -/
def transactionMapper (t : UpstreamTransaction) : MappedTransaction :=
  { id := computeDEXTransactionId t.sender.address t.nonce
    message := t.params.data
    amount := t.params.amount
    timestamp := t.block.timestamp
    senderAddress := t.sender.address
    recipientAddress := t.params.recipientAddress
    signatures := t.signatures
    nonce := t.nonce }

/-- C9: the id assigned by `transactionMapper` is a pure deterministic function
of `(senderAddress, nonce)` only: any two upstream transactions agreeing on
those two fields — whatever their other fields or upstream-reported ids — are
mapped to the same id, computed by `computeDEXTransactionId`. -/
theorem C9_id_pure_function_of_sender_nonce (t1 t2 : UpstreamTransaction)
    (hs : t1.sender.address = t2.sender.address) (hn : t1.nonce = t2.nonce) :
    (transactionMapper t1).id = (transactionMapper t2).id ∧
    (transactionMapper t1).id
      = computeDEXTransactionId t1.sender.address t1.nonce := by
  simp [transactionMapper, hs, hn]

/-- Witness for `C9_id_pure_function_of_sender_nonce`: two transactions equal
only in sender address and nonce (different upstream ids, amounts, recipients,
messages, timestamps, signature lists) get the same recomputed id. -/
theorem C9_id_pure_function_of_sender_nonce_witness :
    (transactionMapper
        ⟨"up-1", "7", ⟨"10", "r1", "m1"⟩, ⟨"snd"⟩, ⟨100⟩, []⟩).id
      = (transactionMapper
        ⟨"up-2", "7", ⟨"99", "r2", "m2"⟩, ⟨"snd"⟩, ⟨200⟩,
          [⟨"a", "k", "sig"⟩]⟩).id ∧
    (transactionMapper
        ⟨"up-1", "7", ⟨"10", "r1", "m1"⟩, ⟨"snd"⟩, ⟨100⟩, []⟩).id
      = computeDEXTransactionId "snd" "7" :=
  C9_id_pure_function_of_sender_nonce
    ⟨"up-1", "7", ⟨"10", "r1", "m1"⟩, ⟨"snd"⟩, ⟨100⟩, []⟩
    ⟨"up-2", "7", ⟨"99", "r2", "m2"⟩, ⟨"snd"⟩, ⟨200⟩, [⟨"a", "k", "sig"⟩]⟩
    rfl rfl

/-- JavaScript `Array.prototype.slice(0, end)` with a possibly negative `end`:
a negative end counts from the end of the array, clamping at zero. -/
def jsSliceFromZero {α : Type} (l : List α) (endIdx : Int) : List α :=
  if endIdx < 0 then l.take (l.length - endIdx.natAbs)
  else l.take endIdx.toNat

theorem jsSliceFromZero_ofNatPred {α : Type} (l : List α) (T : Nat) (hT : 0 < T) :
    jsSliceFromZero l ((T : Int) - 1) = l.take (T - 1) := by
  unfold jsSliceFromZero
  rw [if_neg (by omega)]
  congr 1
  omega

/-- Embedding of the quorum selection in `postTransaction` (adapter.js lines
230-239): keep the first supplied packet, then the first
`dexNumberOfSignatures - 1` packets of the shuffled remainder (`shuffled`
stands for the `lodash.shuffle` result; the theorems let it range over all
permutations of the tail); an empty packet list selects nothing.
`this.dexNumberOfSignatures - 1` is JavaScript number arithmetic, hence the
signed slice bound. -/
def selectedSignatures (dexNumberOfSignatures : Nat)
    (sigs shuffled : List SignaturePacket) : List SignaturePacket :=
  match sigs with
  | [] => []
  | s0 :: _ => s0 :: jsSliceFromZero shuffled ((dexNumberOfSignatures : Int) - 1)

/-- The `publicKeySignatures` object lookup (adapter.js lines 241-244): later
packets with the same key overwrite earlier ones, so the lookup yields the last
packet carrying the given public key. -/
def lastPacketFor (selected : List SignaturePacket) (k : String) :
    Option SignaturePacket :=
  selected.foldl (fun acc p => if p.publicKey = k then some p else acc) none

/-- The position-addressed signature vector (adapter.js lines 246-249): one
entry per canonical member public key — the member's packet's signature when
that member is among the selected packets, the empty placeholder otherwise
(`Buffer.from('', 'hex')` is the empty buffer). -/
def assembleSignatures (memberPublicKeys : List String)
    (selected : List SignaturePacket) : List String :=
  memberPublicKeys.map (fun k =>
    match lastPacketFor selected k with
    | some p => p.signature
    | none => "")

/-- The signature vector `postTransaction` assembles for a caller-supplied
packet list. -/
def postTransactionSignatures (dexNumberOfSignatures : Nat)
    (memberPublicKeys : List String) (sigs shuffled : List SignaturePacket) :
    List String :=
  assembleSignatures memberPublicKeys
    (selectedSignatures dexNumberOfSignatures sigs shuffled)

/-- Broadcast response envelope: the `transactionID` field may be absent. -/
structure BroadcastResponse where
  transactionID : Option String
deriving DecidableEq, Repr

/-- Embedding of the broadcast tail of `postTransaction` (adapter.js lines
251-277): the repository call either throws (transport failure) or yields a
possibly-absent response value; a missing response or a falsy `transactionID`
(absent field, or present with the empty string) raises
`Invalid transaction response`, and the catch block wraps every error into the
broadcast error kind. -/
def postTransaction (dexNumberOfSignatures : Nat) (memberPublicKeys : List String)
    (sigs shuffled : List SignaturePacket)
    (broadcast : List String → Except JsValue (Option BroadcastResponse)) :
    Except AdapterError Unit :=
  let signatures :=
    postTransactionSignatures dexNumberOfSignatures memberPublicKeys sigs shuffled
  match broadcast signatures with
  | .error _ => .error .transactionBroadcast
  | .ok none => .error .transactionBroadcast
  | .ok (some r) =>
    match r.transactionID with
    | none => .error .transactionBroadcast
    | some s => if s = "" then .error .transactionBroadcast else .ok ()

/-- C7 counterexample: a broadcast response that does contain the
`transactionID` field, but with the empty string as its value, still raises the
broadcast error (`!response.transactionID` is true for the falsy empty
string), contradicting the claim that a response containing the identifier
field completes without error. -/
theorem C7_empty_id_counterexample :
    (⟨some ""⟩ : BroadcastResponse).transactionID ≠ none ∧
    postTransaction 1 ["k"] [] [] (fun _ => .ok (some ⟨some ""⟩))
        = .error .transactionBroadcast := by
  exact ⟨by decide, rfl⟩

/-- C7 (amended): a transport error, an absent response, an absent
`transactionID` field or an empty-string `transactionID` each raise the
broadcast error — even when the transport call itself succeeded — and a
response carrying a non-empty `transactionID` completes without error. -/
theorem C7_broadcast_outcome_amended (T : Nat) (M : List String)
    (sigs shuffled : List SignaturePacket)
    (broadcast : List String → Except JsValue (Option BroadcastResponse)) :
    (∀ e, broadcast (postTransactionSignatures T M sigs shuffled) = .error e →
      postTransaction T M sigs shuffled broadcast = .error .transactionBroadcast) ∧
    (broadcast (postTransactionSignatures T M sigs shuffled) = .ok none →
      postTransaction T M sigs shuffled broadcast = .error .transactionBroadcast) ∧
    (∀ r, broadcast (postTransactionSignatures T M sigs shuffled) = .ok (some r) →
      (r.transactionID = none ∨ r.transactionID = some "") →
      postTransaction T M sigs shuffled broadcast = .error .transactionBroadcast) ∧
    (∀ r s, broadcast (postTransactionSignatures T M sigs shuffled) = .ok (some r) →
      r.transactionID = some s → s ≠ "" →
      postTransaction T M sigs shuffled broadcast = .ok ()) := by
  refine ⟨?_, ?_, ?_, ?_⟩
  · intro e he; simp [postTransaction, he]
  · intro he; simp [postTransaction, he]
  · intro r hr hid
    rcases hid with hid | hid <;> simp [postTransaction, hr, hid]
  · intro r s hr hid hs; simp [postTransaction, hr, hid, hs]

/-- Witness for `C7_broadcast_outcome_amended`: a response with the non-empty
identifier "abc" completes without error. -/
theorem C7_broadcast_outcome_amended_witness :
    postTransaction 2 ["k1", "k2"] [] [] (fun _ => .ok (some ⟨some "abc"⟩))
        = .ok () :=
  (C7_broadcast_outcome_amended 2 ["k1", "k2"] [] []
      (fun _ => .ok (some ⟨some "abc"⟩))).2.2.2
    ⟨some "abc"⟩ "abc" rfl rfl (by decide)

/-- C10 counterexample: with threshold 0 and a single supplied packet, the code
selects that one packet (the first packet is always kept), not
`min(1, 0) = 0` packets as the claim requires for every threshold. -/
theorem C10_zero_threshold_counterexample :
    (selectedSignatures 0 [⟨"A", "ka", "sa"⟩] []).length
        ≠ min ([⟨"A", "ka", "sa"⟩] : List SignaturePacket).length 0 := by
  decide

/-- C10 (amended): for a positive threshold T and a non-empty caller-supplied
packet list of length L, `postTransaction` selects exactly `min(L, T)` packets
— in particular all L packets when 0 < L < T — and no under-quorum error is
raised: the transaction is still assembled, and a broadcast response with a
non-empty transaction id completes without error.  (For T = 0 the JavaScript
`slice(0, -1)` drops the last shuffled packet instead of selecting none, which
is what the counterexample records.) -/
theorem C10_min_selection_amended (T : Nat) (hT : 0 < T)
    (s0 : SignaturePacket) (rest shuffled : List SignaturePacket)
    (hperm : shuffled.Perm rest) (M : List String)
    (broadcast : List String → Except JsValue (Option BroadcastResponse))
    (r : BroadcastResponse) (s : String)
    (hresp : broadcast (postTransactionSignatures T M (s0 :: rest) shuffled)
        = .ok (some r))
    (hid : r.transactionID = some s) (hs : s ≠ "") :
    (selectedSignatures T (s0 :: rest) shuffled).length
        = min (s0 :: rest).length T ∧
    postTransaction T M (s0 :: rest) shuffled broadcast = .ok () := by
  constructor
  · have hlen := hperm.length_eq
    simp [selectedSignatures, jsSliceFromZero_ofNatPred _ T hT, List.length_take]
    omega
  · simp [postTransaction, hresp, hid, hs]

/-- Witness for `C10_min_selection_amended`: threshold 3 with two supplied
packets selects both (`min 2 3 = 2`) and the broadcast completes. -/
theorem C10_min_selection_amended_witness :
    (selectedSignatures 3
        [⟨"A", "ka", "sa"⟩, ⟨"B", "kb", "sb"⟩] [⟨"B", "kb", "sb"⟩]).length
      = min ([⟨"A", "ka", "sa"⟩, ⟨"B", "kb", "sb"⟩] : List SignaturePacket).length 3 ∧
    postTransaction 3 ["ka", "kb", "kc"]
        [⟨"A", "ka", "sa"⟩, ⟨"B", "kb", "sb"⟩] [⟨"B", "kb", "sb"⟩]
        (fun _ => .ok (some ⟨some "txid"⟩)) = .ok () :=
  C10_min_selection_amended 3 (by decide) ⟨"A", "ka", "sa"⟩
    [⟨"B", "kb", "sb"⟩] [⟨"B", "kb", "sb"⟩] (by decide)
    ["ka", "kb", "kc"] (fun _ => .ok (some ⟨some "txid"⟩))
    ⟨some "txid"⟩ "txid" rfl rfl (by decide)

theorem lastPacketFor_foldl_no_match (k : String) :
    ∀ (sel : List SignaturePacket) (acc : Option SignaturePacket),
      (∀ p ∈ sel, p.publicKey ≠ k) →
      sel.foldl (fun acc p => if p.publicKey = k then some p else acc) acc = acc := by
  intro sel
  induction sel with
  | nil => intro acc _; rfl
  | cons q qs ih =>
    intro acc h
    have hq : q.publicKey ≠ k := h q (List.mem_cons_self q qs)
    rw [List.foldl_cons, if_neg hq]
    exact ih acc (fun p hp => h p (List.mem_cons_of_mem q hp))

theorem lastPacketFor_eq_none {sel : List SignaturePacket} {k : String}
    (h : ∀ p ∈ sel, p.publicKey ≠ k) : lastPacketFor sel k = none :=
  lastPacketFor_foldl_no_match k sel none h

theorem lastPacketFor_unique (k : String) :
    ∀ (sel : List SignaturePacket),
      (sel.map (fun p => p.publicKey)).Nodup →
      ∀ (p : SignaturePacket), p ∈ sel → p.publicKey = k →
      lastPacketFor sel k = some p := by
  intro sel
  induction sel with
  | nil => intro _ p hp _; cases hp
  | cons q qs ih =>
    intro hnd p hp hk
    rw [List.map_cons, List.nodup_cons] at hnd
    rcases List.mem_cons.mp hp with heq | htail
    · subst heq
      have hrest : ∀ x ∈ qs, x.publicKey ≠ k := by
        intro x hx hxk
        apply hnd.1
        rw [hk, ← hxk]
        exact List.mem_map_of_mem _ hx
      show (p :: qs).foldl (fun acc p => if p.publicKey = k then some p else acc) none
          = some p
      rw [List.foldl_cons, if_pos hk]
      exact lastPacketFor_foldl_no_match k qs (some p) hrest
    · have hq : q.publicKey ≠ k := by
        intro hqk
        apply hnd.1
        rw [hqk, ← hk]
        exact List.mem_map_of_mem _ htail
      show (q :: qs).foldl (fun acc p => if p.publicKey = k then some p else acc) none
          = some p
      rw [List.foldl_cons, if_neg hq]
      exact ih hnd.2 p htail hk

theorem lastPacketFor_foldl_mem (k : String) :
    ∀ (sel : List SignaturePacket) (acc : Option SignaturePacket)
      (p : SignaturePacket),
      sel.foldl (fun acc q => if q.publicKey = k then some q else acc) acc = some p →
      (p ∈ sel ∧ p.publicKey = k) ∨ acc = some p := by
  intro sel
  induction sel with
  | nil => intro acc p h; exact Or.inr h
  | cons q qs ih =>
    intro acc p h
    rw [List.foldl_cons] at h
    rcases ih _ p h with h1 | h2
    · exact Or.inl ⟨List.mem_cons_of_mem q h1.1, h1.2⟩
    · by_cases hq : q.publicKey = k
      · rw [if_pos hq] at h2
        obtain rfl : q = p := Option.some.inj h2
        exact Or.inl ⟨List.mem_cons_self q qs, hq⟩
      · rw [if_neg hq] at h2
        exact Or.inr h2

theorem lastPacketFor_mem {sel : List SignaturePacket} {k : String}
    {p : SignaturePacket} (h : lastPacketFor sel k = some p) :
    p ∈ sel ∧ p.publicKey = k := by
  rcases lastPacketFor_foldl_mem k sel none p h with h1 | h2
  · exact h1
  · exact Option.noConfusion h2

theorem dedupFirst_foldl_nodup :
    ∀ (l acc : List String), acc.Nodup →
      (l.foldl (fun acc x => if x ∈ acc then acc else acc ++ [x]) acc).Nodup := by
  intro l
  induction l with
  | nil => intro acc h; exact h
  | cons x xs ih =>
    intro acc h
    rw [List.foldl_cons]
    by_cases hx : x ∈ acc
    · rw [if_pos hx]; exact ih acc h
    · rw [if_neg hx]
      apply ih
      simp [List.nodup_append, h, hx]

theorem dedupFirst_nodup (l : List String) : (dedupFirst l).Nodup :=
  dedupFirst_foldl_nodup l [] List.nodup_nil

theorem countP_mem_eq_length {K M : List String} (hK : K.Nodup) (hM : M.Nodup)
    (hsub : ∀ k ∈ K, k ∈ M) :
    M.countP (fun k => decide (k ∈ K)) = K.length := by
  rw [List.countP_eq_length_filter]
  have hfil : (M.filter (fun k => decide (k ∈ K))).Nodup := hM.filter _
  have hperm : (M.filter (fun k => decide (k ∈ K))).Perm K := by
    rw [List.perm_ext_iff_of_nodup hfil hK]
    intro a
    simp only [List.mem_filter, decide_eq_true_eq]
    exact ⟨fun h => h.2, fun h => ⟨hsub a h, h⟩⟩
  exact hperm.length_eq

theorem assembleSignatures_length (mks : List String)
    (sel : List SignaturePacket) :
    (assembleSignatures mks sel).length = mks.length := by
  simp [assembleSignatures]

theorem assembleSignatures_getElem (mks : List String)
    (sel : List SignaturePacket) (i : Nat) (k : String) (hik : mks[i]? = some k) :
    (assembleSignatures mks sel)[i]?
      = some (match lastPacketFor sel k with
          | some p => p.signature
          | none => "") := by
  rw [assembleSignatures, List.getElem?_map, hik]
  rfl

theorem assembleSignatures_count (mks : List String) (sel : List SignaturePacket)
    (hMnd : mks.Nodup) (hselnd : (sel.map (fun p => p.publicKey)).Nodup)
    (hsub : ∀ p ∈ sel, p.publicKey ∈ mks)
    (hne : ∀ p ∈ sel, p.signature ≠ "") :
    ((assembleSignatures mks sel).filter (fun s => decide (s ≠ ""))).length
      = sel.length := by
  rw [assembleSignatures, ← List.countP_eq_length_filter, List.countP_map]
  have hcongr : ∀ k ∈ mks,
      ((fun s => decide (s ≠ "")) ∘ (fun k =>
        match lastPacketFor sel k with
        | some p => p.signature
        | none => "")) k = true
      ↔ (fun k => decide (k ∈ sel.map (fun p => p.publicKey))) k = true := by
    intro k _
    simp only [Function.comp_apply, decide_eq_true_eq]
    constructor
    · intro hnz
      rcases hmatch : lastPacketFor sel k with _ | p
      · rw [hmatch] at hnz; simp at hnz
      · have hm := lastPacketFor_mem hmatch
        rw [← hm.2]
        exact List.mem_map_of_mem _ hm.1
    · intro hkK
      obtain ⟨p, hp, hpk⟩ := List.mem_map.mp hkK
      rw [lastPacketFor_unique k sel hselnd p hp hpk]
      exact hne p hp
  rw [List.countP_congr hcongr,
    countP_mem_eq_length hselnd hMnd
      (by intro k hk; obtain ⟨p, hp, hpk⟩ := List.mem_map.mp hk; exact hpk ▸ hsub p hp),
    List.length_map]

/-- C5: for a multisig account (positive threshold) with canonical member keys
`dexMultisigPublicKeys` and threshold `numberOfSignatures`, and for at least
threshold-many supplied signature packets whose public keys are distinct member
keys with non-empty signatures, whatever permutation the shuffle produces: the
signature vector assembled by `postTransaction` has one entry per canonical
member key, contains exactly threshold-many non-empty entries, includes the
first supplied packet's signature at the position of its member key, and places
each selected packet's signature at the position of its member key in the
canonical order with empty placeholders everywhere else. -/
theorem C5_quorum_signature_vector (a : AccountAuth)
    (hT : 0 < a.numberOfSignatures)
    (s0 : SignaturePacket) (rest shuffled : List SignaturePacket)
    (hperm : shuffled.Perm rest)
    (hlen : a.numberOfSignatures ≤ (s0 :: rest).length)
    (hkeys : ∀ p ∈ s0 :: rest, p.publicKey ∈ dexMultisigPublicKeys a)
    (hdist : ((s0 :: rest).map (fun p => p.publicKey)).Nodup)
    (hne : ∀ p ∈ s0 :: rest, p.signature ≠ "") :
    (postTransactionSignatures a.numberOfSignatures (dexMultisigPublicKeys a)
        (s0 :: rest) shuffled).length = (dexMultisigPublicKeys a).length ∧
    ((postTransactionSignatures a.numberOfSignatures (dexMultisigPublicKeys a)
        (s0 :: rest) shuffled).filter (fun s => decide (s ≠ ""))).length
      = a.numberOfSignatures ∧
    (∃ i : Nat, (dexMultisigPublicKeys a)[i]? = some s0.publicKey ∧
      (postTransactionSignatures a.numberOfSignatures (dexMultisigPublicKeys a)
        (s0 :: rest) shuffled)[i]? = some s0.signature) ∧
    (∀ (i : Nat) (k : String), (dexMultisigPublicKeys a)[i]? = some k →
      ((∀ p ∈ selectedSignatures a.numberOfSignatures (s0 :: rest) shuffled,
          p.publicKey ≠ k) →
        (postTransactionSignatures a.numberOfSignatures (dexMultisigPublicKeys a)
          (s0 :: rest) shuffled)[i]? = some "") ∧
      (∀ p ∈ selectedSignatures a.numberOfSignatures (s0 :: rest) shuffled,
        p.publicKey = k →
        (postTransactionSignatures a.numberOfSignatures (dexMultisigPublicKeys a)
          (s0 :: rest) shuffled)[i]? = some p.signature)) := by
  have hpost_eq : postTransactionSignatures a.numberOfSignatures
      (dexMultisigPublicKeys a) (s0 :: rest) shuffled
      = assembleSignatures (dexMultisigPublicKeys a)
        (selectedSignatures a.numberOfSignatures (s0 :: rest) shuffled) := rfl
  have hsel_eq : selectedSignatures a.numberOfSignatures (s0 :: rest) shuffled
      = s0 :: shuffled.take (a.numberOfSignatures - 1) := by
    show s0 :: jsSliceFromZero shuffled ((a.numberOfSignatures : Int) - 1) = _
    rw [jsSliceFromZero_ofNatPred _ _ hT]
  have hsub_sel :
      ∀ p ∈ selectedSignatures a.numberOfSignatures (s0 :: rest) shuffled,
        p ∈ s0 :: rest := by
    intro p hp
    rw [hsel_eq] at hp
    rcases List.mem_cons.mp hp with h | h
    · exact h ▸ List.mem_cons_self s0 rest
    · exact List.mem_cons_of_mem s0 (hperm.mem_iff.mp (List.mem_of_mem_take h))
  have hdist' := hdist
  rw [List.map_cons, List.nodup_cons] at hdist'
  have hshufkeys : (shuffled.map (fun p => p.publicKey)).Perm
      (rest.map (fun p => p.publicKey)) := hperm.map _
  have htakekeys_sub : ((shuffled.take (a.numberOfSignatures - 1)).map
      (fun p => p.publicKey)).Sublist (shuffled.map (fun p => p.publicKey)) :=
    (List.take_sublist _ _).map _
  have hselnd :
      ((selectedSignatures a.numberOfSignatures (s0 :: rest) shuffled).map
        (fun p => p.publicKey)).Nodup := by
    rw [hsel_eq, List.map_cons, List.nodup_cons]
    refine ⟨?_, ?_⟩
    · intro hmem
      exact hdist'.1 (hshufkeys.mem_iff.mp (htakekeys_sub.subset hmem))
    · exact List.Nodup.sublist htakekeys_sub (hshufkeys.nodup_iff.mpr hdist'.2)
  have hsel_len :
      (selectedSignatures a.numberOfSignatures (s0 :: rest) shuffled).length
        = a.numberOfSignatures := by
    rw [hsel_eq]
    have h1 := hperm.length_eq
    simp only [List.length_cons, List.length_take]
    simp only [List.length_cons] at hlen
    omega
  have hMnd : (dexMultisigPublicKeys a).Nodup :=
    dedupFirst_nodup (a.mandatoryKeys ++ a.optionalKeys)
  have hs0mem :
      s0 ∈ selectedSignatures a.numberOfSignatures (s0 :: rest) shuffled := by
    rw [hsel_eq]; exact List.mem_cons_self _ _
  refine ⟨?_, ?_, ?_, ?_⟩
  · exact assembleSignatures_length _ _
  · rw [hpost_eq,
      assembleSignatures_count _ _ hMnd hselnd
        (fun p hp => hkeys p (hsub_sel p hp))
        (fun p hp => hne p (hsub_sel p hp)),
      hsel_len]
  · obtain ⟨i, hi⟩ :=
      List.mem_iff_getElem?.mp (hkeys s0 (List.mem_cons_self s0 rest))
    refine ⟨i, hi, ?_⟩
    rw [hpost_eq, assembleSignatures_getElem _ _ i _ hi,
      lastPacketFor_unique s0.publicKey _ hselnd s0 hs0mem rfl]
  · intro i k hik
    constructor
    · intro hno
      rw [hpost_eq, assembleSignatures_getElem _ _ i _ hik,
        lastPacketFor_eq_none hno]
    · intro p hp hpk
      rw [hpost_eq, assembleSignatures_getElem _ _ i _ hik,
        lastPacketFor_unique k _ hselnd p hp hpk]

/-- Concrete 2-of-3 account for the quorum-selection witness. -/
def c5Auth : AccountAuth := ⟨["ka"], ["kb", "kc"], 2⟩

/-- First supplied packet of the quorum-selection witness (member "ka"). -/
def c5s0 : SignaturePacket := ⟨"A", "ka", "sa"⟩

/-- Second supplied packet of the quorum-selection witness (member "kb"). -/
def c5s1 : SignaturePacket := ⟨"B", "kb", "sb"⟩

/-- Witness for `C5_quorum_signature_vector`: a 2-of-3 account with two supplied
packets; the assembled vector is `["sa", "sb", ""]`. -/
theorem C5_quorum_signature_vector_witness :
    (postTransactionSignatures c5Auth.numberOfSignatures
        (dexMultisigPublicKeys c5Auth) (c5s0 :: [c5s1]) [c5s1]).length
      = (dexMultisigPublicKeys c5Auth).length ∧
    ((postTransactionSignatures c5Auth.numberOfSignatures
        (dexMultisigPublicKeys c5Auth) (c5s0 :: [c5s1]) [c5s1]).filter
        (fun s => decide (s ≠ ""))).length = c5Auth.numberOfSignatures ∧
    (∃ i : Nat, (dexMultisigPublicKeys c5Auth)[i]? = some c5s0.publicKey ∧
      (postTransactionSignatures c5Auth.numberOfSignatures
        (dexMultisigPublicKeys c5Auth) (c5s0 :: [c5s1]) [c5s1])[i]?
          = some c5s0.signature) ∧
    (∀ (i : Nat) (k : String), (dexMultisigPublicKeys c5Auth)[i]? = some k →
      ((∀ p ∈ selectedSignatures c5Auth.numberOfSignatures (c5s0 :: [c5s1]) [c5s1],
          p.publicKey ≠ k) →
        (postTransactionSignatures c5Auth.numberOfSignatures
          (dexMultisigPublicKeys c5Auth) (c5s0 :: [c5s1]) [c5s1])[i]? = some "") ∧
      (∀ p ∈ selectedSignatures c5Auth.numberOfSignatures (c5s0 :: [c5s1]) [c5s1],
        p.publicKey = k →
        (postTransactionSignatures c5Auth.numberOfSignatures
          (dexMultisigPublicKeys c5Auth) (c5s0 :: [c5s1]) [c5s1])[i]?
            = some p.signature)) :=
  C5_quorum_signature_vector c5Auth (by decide) c5s0 [c5s1] [c5s1]
    (List.Perm.refl _) (by decide) (by decide) (by decide) (by decide)

end DexAdapter
